import Mathlib

/-
Shallow embedding of the local document store of
src/src/utils/store.ts (class Collection<T>).

Documents are modelled as association lists from field names to primitive
values (the value universe the repository actually stores: strings, numbers
and booleans, as produced by the zod userSchema at the bottom of store.ts).
A missing key plays the role of the JavaScript value undefined.

The asynchronous persistence boundary (chrome.storage.local wrapped by the
static Collection.set / Collection.get promises) is modelled by passing the
outcome of the get as an Except value and the outcome of the set as an
Except value: an .error models a rejected promise, which the try/catch of
every operation converts into the error envelope.  Each mutating operation
returns, next to its Response envelope, the new stored array when (and only
when) a successful set happened.

Nondeterministic effects are explicit parameters: uuidv4() becomes a fresh
identifier argument (a generator indexed by call order for createMany) and
new Date().toISOString() becomes a timestamp argument.
-/

namespace Store

/-- Primitive JavaScript values stored in documents. -/
inductive Value where
  | vStr (s : String)
  | vNum (n : Int)
  | vBool (b : Bool)
deriving DecidableEq

/-- A JavaScript object: an insertion-ordered association list of fields. -/
abbrev Fields := List (String × Value)

/-- Property access obj[k]: the value of the first entry with key k,
none playing the role of undefined. -/
def getF (o : Fields) (k : String) : Option Value :=
  (o.find? (fun p => p.1 == k)).map (fun p => p.2)

/-- Whether the object has the key k. -/
def hasF (o : Fields) (k : String) : Bool :=
  o.any (fun p => p.1 == k)

/-- The object spread \x7b...a, ...b\x7d: keys of a keep their position but
take the value from b when b also has them; keys only in b are appended. -/
def oMerge (a b : Fields) : Fields :=
  a.map (fun p => match getF b p.1 with | some v => (p.1, v) | none => p)
    ++ b.filter (fun p => !hasF a p.1)

/-- Lexicographic comparison of character lists, the order JavaScript uses
for its string relational operators. -/
def strLtB : List Char → List Char → Bool
  | [], [] => false
  | [], _ :: _ => true
  | _ :: _, [] => false
  | a :: as, b :: bs => if a < b then true else if b < a then false else strLtB as bs

/-- JavaScript numeric coercion of a primitive, when it yields a number we
model (booleans become 0/1; strings are outside the modelled universe). -/
def toNumV : Value → Option Int
  | .vNum n => some n
  | .vBool b => some (if b then 1 else 0)
  | .vStr _ => none

/-- The JavaScript relation a < b on possibly-undefined primitives:
string/string compares lexicographically, otherwise both sides are coerced
to numbers; a comparison involving undefined (or a coercion that fails in
the modelled universe) is false. -/
def jsLt : Option Value → Option Value → Bool
  | some (.vStr a), some (.vStr b) => strLtB a.data b.data
  | some x, some y =>
    match toNumV x, toNumV y with
    | some a, some b => decide (a < b)
    | _, _ => false
  | _, _ => false

/-- The JavaScript relation a <= b on possibly-undefined primitives,
false as soon as undefined is involved. -/
def jsLe : Option Value → Option Value → Bool
  | some (.vStr a), some (.vStr b) => !strLtB b.data a.data
  | some x, some y =>
    match toNumV x, toNumV y with
    | some a, some b => decide (a ≤ b)
    | _, _ => false
  | _, _ => false

/-- The status field of the Response envelope of store.ts. -/
inductive Status where
  | ok
  | error
  | unauthorized
  | unauthenticated
deriving DecidableEq

/-- The errors field of the Response envelope of store.ts. -/
inductive ErrKind where
  | notFound
  | serverError
  | networkError
  | validationError
  | badRequest
  | dataExists
  | unknownError
deriving DecidableEq

/-- The Response envelope of store.ts. -/
structure Resp (α : Type) where
  data : Option α
  count : Option Int := none
  status : Status
  errors : Option ErrKind := none
  message : Option String := none
deriving DecidableEq

/-- A zod schema at the granularity store.ts uses it: safeParse either
fails with the joined issue messages or succeeds with the parsed
(transformed) data. -/
structure SchemaM where
  parse : Fields → Except String Fields

/-- The flat strict-equality match used by read, update and remove:
Object.entries(query).every(([key, value]) => item[key] === value). -/
def flatMatch (q : Fields) (d : Fields) : Bool :=
  q.all (fun p => getF d p.1 == some p.2)

/-- Models Collection.create (store.ts lines 183-228).  getRes is the
outcome of Collection.get, setRes the outcome of Collection.set, freshId
the uuidv4() value and now the toISOString() value.  The second component
is the newly stored array when a successful set happened. -/
def create (sch : SchemaM) (getRes : Except String (List Fields))
    (setRes : Except String Unit) (freshId now : String) (data : Option Fields) :
    Resp Fields × Option (List Fields) :=
  match data with
  | none =>
    ({ data := none, status := .error, message := some "Data is required",
       errors := some .badRequest }, none)
  | some d =>
    match sch.parse d with
    | .error msg => ({ data := none, status := .error, message := some msg }, none)
    | .ok pd =>
      match getRes with
      | .error msg => ({ data := none, status := .error, message := some msg }, none)
      | .ok state =>
        let transformed := oMerge pd
          [("_id", .vStr freshId), ("_createdAt", .vStr now), ("_updatedAt", .vStr now)]
        match setRes with
        | .error msg => ({ data := none, status := .error, message := some msg }, none)
        | .ok _ =>
          ({ data := some transformed, count := some 1, status := .ok,
             message := some "Document created successfully." },
           some (state ++ [transformed]))

/-- Models Collection.read (store.ts lines 230-262). -/
def read (getRes : Except String (List Fields)) (q : Fields) : Resp Fields :=
  match getRes with
  | .error msg => { data := none, status := .error, message := some msg }
  | .ok state =>
    match state.find? (flatMatch q) with
    | none =>
      { data := none, status := .error, message := some "Document not found.",
        errors := some .notFound }
    | some doc =>
      { data := some doc, count := some 1, status := .ok,
        message := some "Document retrieved successfully." }

/-- findIndex over the array followed by assignment of the merged document
at that index: returns the merged document and the new array, or none when
findIndex gives -1. -/
def updateFirst (q tr : Fields) : List Fields → Option (Fields × List Fields)
  | [] => none
  | d :: ds =>
    if flatMatch q d then some (oMerge d tr, oMerge d tr :: ds)
    else
      match updateFirst q tr ds with
      | none => none
      | some (r, l) => some (r, d :: l)

/-- Models Collection.update (store.ts lines 264-314): merges the patch
and a fresh _updatedAt into the first matching document. -/
def update (getRes : Except String (List Fields)) (setRes : Except String Unit)
    (now : String) (q : Fields) (patch : Fields) :
    Resp Fields × Option (List Fields) :=
  match getRes with
  | .error msg => ({ data := none, status := .error, message := some msg }, none)
  | .ok state =>
    match updateFirst q (oMerge patch [("_updatedAt", .vStr now)]) state with
    | none =>
      ({ data := none, status := .error, message := some "Document not found.",
         errors := some .notFound }, none)
    | some (newDoc, newState) =>
      match setRes with
      | .error msg => ({ data := none, status := .error, message := some msg }, none)
      | .ok _ =>
        ({ data := some newDoc, count := some 1, status := .ok,
           message := some "Document updated successfully." }, some newState)

/-- findIndex over the array followed by splice(index, 1): returns the
removed document and the remaining array, or none when findIndex gives -1. -/
def removeFirst (q : Fields) : List Fields → Option (Fields × List Fields)
  | [] => none
  | d :: ds =>
    if flatMatch q d then some (d, ds)
    else
      match removeFirst q ds with
      | none => none
      | some (r, l) => some (r, d :: l)

/-- Models Collection.remove (store.ts lines 316-353). -/
def remove (getRes : Except String (List Fields)) (setRes : Except String Unit)
    (q : Fields) : Resp Fields × Option (List Fields) :=
  match getRes with
  | .error msg => ({ data := none, status := .error, message := some msg }, none)
  | .ok state =>
    match removeFirst q state with
    | none =>
      ({ data := none, status := .error, message := some "Document not found.",
         errors := some .notFound }, none)
    | some (deleted, newState) =>
      match setRes with
      | .error msg => ({ data := none, status := .error, message := some msg }, none)
      | .ok _ =>
        ({ data := some deleted, status := .ok,
           message := some "Document removed successfully." }, some newState)

/-- Models schema.array().safeParse: all-or-nothing validation of the whole
array, the failure carrying the joined messages of every failing element. -/
def parseMany (sch : SchemaM) (ds : List Fields) : Except String (List Fields) :=
  let errs := ds.filterMap (fun d =>
    match sch.parse d with | .error m => some m | .ok _ => none)
  if errs.isEmpty then
    .ok (ds.filterMap (fun d => (sch.parse d).toOption))
  else
    .error (String.intercalate ", " errs)

/-- The map of createMany that stamps each parsed element with its own
uuidv4() (the i-th call of the generator for the i-th element) and the
one shared pair of timestamps. -/
def tagDocs (gen : Nat → String) (now : String) : Nat → List Fields → List Fields
  | _, [] => []
  | i, pd :: rest =>
    oMerge pd [("_id", .vStr (gen i)), ("_createdAt", .vStr now), ("_updatedAt", .vStr now)]
      :: tagDocs gen now (i + 1) rest

/-- Models Collection.createMany (store.ts lines 355-400). -/
def createMany (sch : SchemaM) (getRes : Except String (List Fields))
    (setRes : Except String Unit) (gen : Nat → String) (now : String)
    (data : Option (List Fields)) : Resp (List Fields) × Option (List Fields) :=
  match data with
  | none =>
    ({ data := some [], status := .error, message := some "Data is required",
       errors := some .badRequest }, none)
  | some ds =>
    match parseMany sch ds with
    | .error msg => ({ data := some [], status := .error, message := some msg }, none)
    | .ok pds =>
      let transformed := tagDocs gen now 0 pds
      match getRes with
      | .error msg => ({ data := some [], status := .error, message := some msg }, none)
      | .ok state =>
        match setRes with
        | .error msg => ({ data := some [], status := .error, message := some msg }, none)
        | .ok _ =>
          ({ data := some transformed, count := some (transformed.length : Int),
             status := .ok, message := some "Documents created successfully." },
           some (state ++ transformed))

/-- One field-level comparison inside a query condition: either a direct
value (compared with ===) or an operator object with optional keys
that must all hold. -/
inductive FieldCond where
  | direct (k : String) (v : Value)
  | ops (k : String) (gt lt eq : Option Value)
deriving DecidableEq

/-- An inner condition: an object of field-level comparisons, all of which
must hold. -/
abbrev InnerCond := List FieldCond

/-- One entry of a query condition object: a field-level comparison or one
of the logical keys, whose value is a list of inner conditions. -/
inductive CondEntry where
  | fc (c : FieldCond)
  | orC (cs : List InnerCond)
  | andC (cs : List InnerCond)
  | notC (cs : List InnerCond)
deriving DecidableEq

/-- A query condition object, iterated entry by entry. -/
abbrev Cond := List CondEntry

/-- Field-level step of Collection.match: the direct branch checks
document[field] === value; the operator branch returns false as soon as one
present operator fails, where failure tests are document[field] <= v for
gt, document[field] >= v for lt and document[field] !== v for eq. -/
def matchField (d : Fields) : FieldCond → Bool
  | .direct k v => getF d k == some v
  | .ops k g l e =>
    (match g with | none => true | some v => !(jsLe (getF d k) (some v))) &&
    (match l with | none => true | some v => !(jsLe (some v) (getF d k))) &&
    (match e with | none => true | some v => getF d k == some v)

/-- A document matches an inner condition when every field-level
comparison in it holds. -/
def matchInner (d : Fields) (c : InnerCond) : Bool :=
  c.all (matchField d)

/-- One entry of Collection.match: the logical keys recurse with some,
every and not-some over their condition lists. -/
def matchEntry (d : Fields) : CondEntry → Bool
  | .fc c => matchField d c
  | .orC cs => cs.any (matchInner d)
  | .andC cs => cs.all (matchInner d)
  | .notC cs => !(cs.any (matchInner d))

/-- Models the static Collection.match (store.ts lines 97-169): the loop
over the condition entries returns false on the first failing entry. -/
def matchCond (d : Fields) (c : Cond) : Bool :=
  c.all (matchEntry d)

/-- An orderBy direction. -/
inductive SortDir where
  | asc
  | desc
deriving DecidableEq

/-- The where argument of readMany: one condition object or an array. -/
inductive WhereArg where
  | one (c : Cond)
  | many (cs : List Cond)
deriving DecidableEq

/-- The queries argument of readMany; none models an absent key. -/
structure RMQueries where
  whereQ : Option WhereArg := none
  orderBy : Option (List (String × SortDir)) := none
  limit : Option Nat := none
  skip : Option Nat := none

/-- One key of the orderBy comparator: a[key] < b[key] gives -1 for asc
and 1 for desc, a[key] > b[key] the opposite, equal or incomparable 0. -/
def cmpKey (dir : SortDir) (a b : Option Value) : Int :=
  if jsLt a b then (match dir with | .asc => -1 | .desc => 1)
  else if jsLt b a then (match dir with | .asc => 1 | .desc => -1)
  else 0

/-- The readMany comparator: Object.entries(orderBy).reduce over the keys,
keeping the first nonzero comparison. -/
def cmpDocs (ob : List (String × SortDir)) (a b : Fields) : Int :=
  ob.foldl (fun acc p => if acc != 0 then acc else cmpKey p.2 (getF a p.1) (getF b p.1)) 0

/-- Insert into an already sorted list, after every element that compares
strictly below, so that ties keep their original relative order. -/
def insertSorted (cmpLt : α → α → Bool) (x : α) : List α → List α
  | [] => [x]
  | y :: ys => if cmpLt y x then y :: insertSorted cmpLt x ys else x :: y :: ys

/-- The stable comparator sort of Array.prototype.sort (ES2019 requires
the sort to be stable, and the comparator built by readMany is consistent
on the schema-typed fields it is used with). -/
def stableSort (cmp : α → α → Int) : List α → List α
  | [] => []
  | x :: xs => insertSorted (fun a b => decide (cmp a b < 0)) x (stableSort cmp xs)

/-- Models Collection.readMany (store.ts lines 402-470).  The whole
filter/sort/slice pipeline runs only when a where clause is present; a
limit of 0 is falsy in limit || 10 and in the slice bound, so it falls back
to the default 10.  slice(s, e) is drop s followed by take (e - s). -/
def readMany (getRes : Except String (List Fields)) (q : RMQueries) :
    Resp (List Fields) :=
  match getRes with
  | .error msg => { data := some [], status := .error, message := some msg }
  | .ok state =>
    match q.whereQ with
    | none =>
      { data := some state, count := some (state.length : Int), status := .ok,
        message := some "Documents retrieved successfully." }
    | some w =>
      let lim := match q.limit with | none => 10 | some l => if l = 0 then 10 else l
      let sk := match q.skip with | none => 0 | some s => s
      let whereList := match w with | .one c => [c] | .many cs => cs
      let res1 := state.filter (fun d => whereList.any (fun c => matchCond d c))
      let res2 := match q.orderBy with
        | none => res1
        | some ob => stableSort (cmpDocs ob) res1
      let stop := match q.limit with
        | some l => if l = 0 then sk + lim else sk + l
        | none => sk + lim
      let res3 := (res2.drop sk).take (stop - sk)
      { data := some res3, count := some (res3.length : Int), status := .ok,
        message := some "Documents retrieved successfully." }

/-- Models the zod userSchema at the bottom of store.ts: an object of a
string username, a role restricted to admin or user, a numeric posted and
a boolean verified; parsing keeps exactly those keys. -/
def userParse (d : Fields) : Except String Fields :=
  match getF d "username", getF d "role", getF d "posted", getF d "verified" with
  | some (.vStr u), some (.vStr r), some (.vNum p), some (.vBool v) =>
    if r = "admin" || r = "user" then
      .ok [("username", .vStr u), ("role", .vStr r), ("posted", .vNum p), ("verified", .vBool v)]
    else
      .error "Invalid enum value"
  | _, _, _, _ => .error "Required"

/-- The schema of the users collection instantiated in store.ts. -/
def userSchema : SchemaM := ⟨userParse⟩

/-- A document with only a posted field, as in the pagination example. -/
def postedDoc (n : Int) : Fields := [("posted", Value.vNum n)]

/-- A document with only a role field. -/
def adminDoc : Fields := [("role", Value.vStr "admin")]

/-- A well-formed outcome: status ok, or status error with a message. -/
def envOk {α : Type} (r : Resp α) : Prop :=
  r.status = Status.ok ∨ (r.status = Status.error ∧ r.message.isSome = true)

/-- The stored _updatedAt of a document is not later than the string now
(vacuously true when the document has no string timestamp). -/
def tsLe (x : Option Value) (now : String) : Bool :=
  match x with
  | some (.vStr t) => !strLtB now.data t.data
  | _ => true

/-- One public mutating operation together with its effect parameters, for
reasoning about operation sequences: the persistence get is the current
stored array and setRes is the outcome of the persistence set. -/
inductive Op where
  | opCreate (freshId now : String) (data : Option Fields) (setRes : Except String Unit)
  | opCreateMany (gen : Nat → String) (now : String) (data : Option (List Fields))
      (setRes : Except String Unit)
  | opUpdate (now : String) (q patch : Fields) (setRes : Except String Unit)
  | opRemove (q : Fields) (setRes : Except String Unit)

/-- The stored array after one operation: the new array of a successful
set, otherwise the array is untouched. -/
def applyOp (sch : SchemaM) (s : List Fields) : Op → List Fields
  | .opCreate i t d st => ((create sch (.ok s) st i t d).2).getD s
  | .opCreateMany gen t d st => ((createMany sch (.ok s) st gen t d).2).getD s
  | .opUpdate t q patch st => ((update (.ok s) st t q patch).2).getD s
  | .opRemove q st => ((remove (.ok s) st q).2).getD s

/-- The stored array after a sequence of operations. -/
def applyOps (sch : SchemaM) (s : List Fields) (ops : List Op) : List Fields :=
  ops.foldl (applyOp sch) s

/-- The _id column of a stored array. -/
def ids (s : List Fields) : List (Option Value) :=
  s.map (fun d => getF d "_id")

/-- The identifiers an operation would assign to the documents it creates:
the first n values of the generator starting at index i. -/
def genIds (gen : Nat → String) : Nat → Nat → List (Option Value)
  | _, 0 => []
  | i, n + 1 => some (.vStr (gen i)) :: genIds gen (i + 1) n

/-- The fresh identifiers supplied to an operation. -/
def opNewIds : Op → List (Option Value)
  | .opCreate i _ _ _ => [some (.vStr i)]
  | .opCreateMany gen _ d _ =>
    match d with
    | none => []
    | some ds => genIds gen 0 ds.length
  | .opUpdate _ _ _ _ => []
  | .opRemove _ _ => []

/-- The typed interface never lets a patch carry the system key _id
(update takes a value of the user type with all fields optional). -/
def opIdOk : Op → Bool
  | .opUpdate _ _ patch _ => !hasF patch "_id"
  | _ => true

/-- The identifiers an operation supplies are mutually distinct and absent
from the current stored array (what uuidv4 freshness gives). -/
def opFreshOk (op : Op) (s : List Fields) : Bool :=
  decide (opNewIds op).Nodup && (opNewIds op).all (fun i => decide (i ∉ ids s))

/-- A run of operations in which every step respects the typed interface
and receives fresh identifiers. -/
def goodRun (sch : SchemaM) : List Fields → List Op → Bool
  | _, [] => true
  | s, op :: rest =>
    opIdOk op && opFreshOk op s && goodRun sch (applyOp sch s op) rest

end Store

namespace Store

/-! ### Association-list lemmas about field access and object spread -/

theorem getF_cons (p : String × Value) (o : Fields) (k : String) :
    getF (p :: o) k = if p.1 == k then some p.2 else getF o k := by
  by_cases h : p.1 == k <;> simp [getF, List.find?_cons, h]

theorem hasF_cons (p : String × Value) (o : Fields) (k : String) :
    hasF (p :: o) k = ((p.1 == k) || hasF o k) := by
  simp [hasF]

theorem hasF_eq_isSome (o : Fields) (k : String) :
    hasF o k = (getF o k).isSome := by
  induction o with
  | nil => rfl
  | cons p o ih =>
    rw [hasF_cons, getF_cons]
    by_cases h : p.1 == k <;> simp [h, ih]

theorem getF_eq_none_of_hasF_false (o : Fields) (k : String)
    (h : hasF o k = false) : getF o k = none := by
  rw [hasF_eq_isSome] at h
  exact Option.not_isSome_iff_eq_none.mp (by simp [h])

theorem hasF_filter_false (b : Fields) (g : String × Value → Bool) (k : String)
    (h : hasF b k = false) : hasF (b.filter g) k = false := by
  rw [hasF, List.any_eq_false] at h ⊢
  intro p hp
  exact h p (List.mem_of_mem_filter hp)

theorem getF_filter_of_key_true (b : Fields) (g : String × Value → Bool) (k : String)
    (h : ∀ p ∈ b, p.1 = k → g p = true) :
    getF (b.filter g) k = getF b k := by
  induction b with
  | nil => rfl
  | cons p b ih =>
    have ihr : getF (b.filter g) k = getF b k :=
      ih (fun q hq hqk => h q (List.mem_cons_of_mem p hq) hqk)
    by_cases hpk : p.1 == k
    · have hg : g p = true := h p (List.mem_cons_self p b) (by simpa using hpk)
      rw [List.filter_cons_of_pos hg, getF_cons, getF_cons]
      simp [hpk]
    · by_cases hg : g p = true
      · rw [List.filter_cons_of_pos hg, getF_cons, getF_cons]
        simp [hpk, ihr]
      · rw [List.filter_cons_of_neg (by simp [hg]), getF_cons]
        simp [hpk, ihr]

theorem getF_filter_of_key_false (b : Fields) (g : String × Value → Bool) (k : String)
    (h : ∀ p ∈ b, p.1 = k → g p = false) :
    getF (b.filter g) k = none := by
  induction b with
  | nil => rfl
  | cons p b ih =>
    have ihr : getF (b.filter g) k = none :=
      ih (fun q hq hqk => h q (List.mem_cons_of_mem p hq) hqk)
    by_cases hg : g p = true
    · rw [List.filter_cons_of_pos hg, getF_cons]
      by_cases hpk : p.1 == k
      · exact absurd (h p (List.mem_cons_self p b) (by simpa using hpk)) (by simp [hg])
      · simp [hpk, ihr]
    · rw [List.filter_cons_of_neg (by simp [hg])]
      exact ihr

theorem getF_map_merge (a b : Fields) (k : String) :
    getF (a.map (fun p => match getF b p.1 with | some v => (p.1, v) | none => p)) k
      = match getF a k, getF b k with
        | none, _ => none
        | some _, some v => some v
        | some w, none => some w := by
  induction a with
  | nil => simp [getF]
  | cons p a ih =>
    rw [List.map_cons, getF_cons]
    by_cases hpk : p.1 == k
    · have hk : p.1 = k := by simpa using hpk
      cases hb : getF b p.1 with
      | none =>
        rw [getF_cons]
        simp only [hpk, if_pos rfl]
        rw [hk] at hb
        simp [hb]
      | some v =>
        rw [getF_cons]
        simp only [hpk]
        rw [hk] at hb
        simp [hb]
    · cases hgb : getF b p.1 with
      | none =>
        rw [getF_cons]
        simp only [hpk]
        simpa using ih
      | some v =>
        rw [getF_cons]
        simp only [hpk]
        simpa using ih

theorem getF_append (x y : Fields) (k : String) :
    getF (x ++ y) k = (getF x k).or (getF y k) := by
  induction x with
  | nil => simp [getF]
  | cons p x ih =>
    rw [List.cons_append, getF_cons, getF_cons]
    by_cases h : p.1 == k <;> simp [h, ih]

theorem getF_oMerge (a b : Fields) (k : String) :
    getF (oMerge a b) k = if hasF b k then getF b k else getF a k := by
  rw [oMerge, getF_append, getF_map_merge]
  by_cases hb : hasF b k
  · have hbs : (getF b k).isSome := by rw [← hasF_eq_isSome]; exact hb
    obtain ⟨v, hv⟩ := Option.isSome_iff_exists.mp hbs
    cases ha : getF a k with
    | none =>
      have haf : hasF a k = false := by rw [hasF_eq_isSome, ha]; rfl
      have hfil : getF (b.filter (fun p => !hasF a p.1)) k = getF b k := by
        apply getF_filter_of_key_true
        intro p _ hpk
        rw [hpk, haf]
        rfl
      simp [hv, hfil, hb]
    | some w =>
      have haf : hasF a k = true := by rw [hasF_eq_isSome, ha]; rfl
      have hfil : getF (b.filter (fun p => !hasF a p.1)) k = none := by
        apply getF_filter_of_key_false
        intro p _ hpk
        rw [hpk, haf]
        rfl
      simp [hv, hfil, hb]
  · have hb0 : hasF b k = false := by simpa using hb
    have hbn : getF b k = none := getF_eq_none_of_hasF_false b k hb0
    have hfil : getF (b.filter (fun p => !hasF a p.1)) k = none :=
      getF_eq_none_of_hasF_false _ _ (hasF_filter_false b _ k hb0)
    cases ha : getF a k with
    | none => simp [hbn, hfil, hb0]
    | some w => simp [hbn, hfil, hb0]

theorem hasF_oMerge (a b : Fields) (k : String) :
    hasF (oMerge a b) k = (hasF a k || hasF b k) := by
  rw [hasF_eq_isSome, getF_oMerge]
  by_cases hb : hasF b k
  · simp [hb, ← hasF_eq_isSome]
  · have hb0 : hasF b k = false := by simpa using hb
    simp [hb0, ← hasF_eq_isSome]

end Store

namespace Store

/-! ### Length of the stable sort -/

theorem length_insertSorted (cmpLt : α → α → Bool) (x : α) (l : List α) :
    (insertSorted cmpLt x l).length = l.length + 1 := by
  induction l with
  | nil => rfl
  | cons y ys ih => by_cases h : cmpLt y x <;> simp [insertSorted, h, ih]

theorem length_stableSort (cmp : α → α → Int) (l : List α) :
    (stableSort cmp l).length = l.length := by
  induction l with
  | nil => rfl
  | cons x xs ih => simp [stableSort, length_insertSorted, ih]

/-! ### Claim C1 -/

/-- C1 counterexample: on the collection created in order posted 1, 3, 2,
readMany with orderBy posted desc, limit 2, skip 1 and no where clause does
not return the two documents posted 2 and 1: it returns the entire
collection in insertion order, because the filter/sort/slice pipeline only
runs when a where clause is present. -/
theorem c1_counterexample :
    (readMany (.ok [postedDoc 1, postedDoc 3, postedDoc 2])
      { orderBy := some [("posted", .desc)], limit := some 2, skip := some 1 }).data
      = some [postedDoc 1, postedDoc 3, postedDoc 2]
    ∧ (readMany (.ok [postedDoc 1, postedDoc 3, postedDoc 2])
      { orderBy := some [("posted", .desc)], limit := some 2, skip := some 1 }).data
      ≠ some [postedDoc 2, postedDoc 1] := by
  exact ⟨by decide, by decide⟩

/-- C1 amended: orderBy, limit and skip only apply when a where clause is
present; adding a trivially true where clause (the empty condition object),
the same call returns exactly the documents posted 2 then posted 1, and
without a where clause it returns the entire collection with its full
count. -/
theorem c1_amended :
    ((readMany (.ok [postedDoc 1, postedDoc 3, postedDoc 2])
      { whereQ := some (.one []), orderBy := some [("posted", .desc)],
        limit := some 2, skip := some 1 }).status = Status.ok
    ∧ (readMany (.ok [postedDoc 1, postedDoc 3, postedDoc 2])
      { whereQ := some (.one []), orderBy := some [("posted", .desc)],
        limit := some 2, skip := some 1 }).data
      = some [postedDoc 2, postedDoc 1])
    ∧ ((readMany (.ok [postedDoc 1, postedDoc 3, postedDoc 2])
      { orderBy := some [("posted", .desc)], limit := some 2, skip := some 1 }).status = Status.ok
    ∧ (readMany (.ok [postedDoc 1, postedDoc 3, postedDoc 2])
      { orderBy := some [("posted", .desc)], limit := some 2, skip := some 1 }).count
      = some 3) := by
  exact ⟨⟨by decide, by decide⟩, ⟨by decide, by decide⟩⟩

/-! ### Claim C8 -/

/-- C8 counterexample: with eleven stored documents all matching the single
condition role = admin, readMany returns only ten of them (the default
limit), so the returned documents are not exactly the matching ones. -/
theorem c8_counterexample :
    (∀ d ∈ List.replicate 11 adminDoc,
        matchCond d [CondEntry.fc (.direct "role" (.vStr "admin"))] = true)
    ∧ (readMany (.ok (List.replicate 11 adminDoc))
        { whereQ := some (.many [[CondEntry.fc (.direct "role" (.vStr "admin"))]]) }).data
      = some (List.replicate 10 adminDoc)
    ∧ (readMany (.ok (List.replicate 11 adminDoc))
        { whereQ := some (.many [[CondEntry.fc (.direct "role" (.vStr "admin"))]]) }).data
      ≠ some (List.replicate 11 adminDoc) := by
  exact ⟨by decide, by decide, by decide⟩

/-- C8 amended: with a where clause that is a set of conditions and no
orderBy, limit or skip, readMany returns status ok and exactly the first
ten (the default limit) of the stored documents that satisfy at least one
condition of the set, in stored order; in particular every returned
document satisfies a condition, and whenever at most ten documents match
the result is exactly the set of matching documents. -/
theorem c8_amended (state : List Fields) (cs : List Cond) :
    (readMany (.ok state) { whereQ := some (.many cs) }).status = Status.ok
    ∧ (readMany (.ok state) { whereQ := some (.many cs) }).data
      = some ((state.filter (fun d => cs.any (fun c => matchCond d c))).take 10) := by
  constructor
  · simp [readMany]
  · simp [readMany]

/-! ### Claim C9 -/

/-- C9: a readMany call with a where clause and an explicit limit of 0 is
the same call as one with the limit omitted (0 is falsy in both uses of
limit), and whenever more documents match than are skipped the result is
nonempty. -/
theorem c9_limit_zero (state : List Fields) (w : WhereArg)
    (ob : Option (List (String × SortDir))) (sk : Option Nat)
    (hmatch : sk.getD 0 <
      (state.filter (fun d =>
        (match w with | .one c => [c] | .many cs => cs).any
          (fun c => matchCond d c))).length) :
    readMany (.ok state) ⟨some w, ob, some 0, sk⟩
      = readMany (.ok state) ⟨some w, ob, none, sk⟩
    ∧ ∃ l, (readMany (.ok state) ⟨some w, ob, some 0, sk⟩).data = some l ∧ l ≠ [] := by
  constructor
  · rfl
  · cases sk with
    | none =>
      cases ob with
      | none =>
        refine ⟨_, rfl, ?_⟩
        rw [← List.length_pos_iff_ne_nil]
        simp only [Option.getD_none] at hmatch
        try simp [List.length_take, List.length_drop, lt_min_iff]
        omega
      | some o =>
        refine ⟨_, rfl, ?_⟩
        rw [← List.length_pos_iff_ne_nil]
        simp only [Option.getD_none] at hmatch
        try simp [List.length_take, List.length_drop, length_stableSort, lt_min_iff]
        omega
    | some s =>
      cases ob with
      | none =>
        refine ⟨_, rfl, ?_⟩
        rw [← List.length_pos_iff_ne_nil]
        simp only [Option.getD_some] at hmatch
        try simp [List.length_take, List.length_drop, lt_min_iff]
        omega
      | some o =>
        refine ⟨_, rfl, ?_⟩
        rw [← List.length_pos_iff_ne_nil]
        simp only [Option.getD_some] at hmatch
        try simp [List.length_take, List.length_drop, length_stableSort, lt_min_iff]
        omega

/-- C9 witness: one stored document matching the empty condition, limit
explicitly 0: the call equals the limit-omitted call and returns a
nonempty result. -/
theorem c9_limit_zero_witness :
    readMany (.ok [[("posted", Value.vNum 1)]]) ⟨some (.one []), none, some 0, none⟩
      = readMany (.ok [[("posted", Value.vNum 1)]]) ⟨some (.one []), none, none, none⟩
    ∧ ∃ l, (readMany (.ok [[("posted", Value.vNum 1)]])
        ⟨some (.one []), none, some 0, none⟩).data = some l ∧ l ≠ [] :=
  c9_limit_zero [[("posted", Value.vNum 1)]] (.one []) none none (by decide)

/-! ### Claim C3 -/

/-- C3: every operation, on every input - including a rejecting
persistence get or set and a throwing validation - produces a Response
envelope that is ok or error-with-message (the embedding is total, so no
exception ever reaches the caller), and a rejecting persistence get always
produces a status error envelope. -/
theorem c3_envelope_total :
    (∀ (sch : SchemaM) (g : Except String (List Fields)) (st : Except String Unit)
        (i t : String) (d : Option Fields), envOk (create sch g st i t d).1)
    ∧ (∀ (g : Except String (List Fields)) (q : Fields), envOk (read g q))
    ∧ (∀ (g : Except String (List Fields)) (st : Except String Unit) (t : String)
        (q patch : Fields), envOk (update g st t q patch).1)
    ∧ (∀ (g : Except String (List Fields)) (st : Except String Unit) (q : Fields),
        envOk (remove g st q).1)
    ∧ (∀ (sch : SchemaM) (g : Except String (List Fields)) (st : Except String Unit)
        (gen : Nat → String) (t : String) (d : Option (List Fields)),
        envOk (createMany sch g st gen t d).1)
    ∧ (∀ (g : Except String (List Fields)) (q : RMQueries), envOk (readMany g q))
    ∧ (∀ (sch : SchemaM) (m : String) (st : Except String Unit) (i t : String)
        (d : Option Fields), (create sch (.error m) st i t d).1.status = Status.error)
    ∧ (∀ (m : String) (q : Fields), (read (.error m) q).status = Status.error)
    ∧ (∀ (m : String) (st : Except String Unit) (t : String) (q patch : Fields),
        (update (.error m) st t q patch).1.status = Status.error)
    ∧ (∀ (m : String) (st : Except String Unit) (q : Fields),
        (remove (.error m) st q).1.status = Status.error)
    ∧ (∀ (sch : SchemaM) (m : String) (st : Except String Unit) (gen : Nat → String)
        (t : String) (d : Option (List Fields)),
        (createMany sch (.error m) st gen t d).1.status = Status.error)
    ∧ (∀ (m : String) (q : RMQueries), (readMany (.error m) q).status = Status.error) := by
  refine ⟨?_, ?_, ?_, ?_, ?_, ?_, ?_, ?_, ?_, ?_, ?_, ?_⟩
  · intro sch g st i t d
    unfold create
    repeat' split
    all_goals simp_all [envOk]
  · intro g q
    unfold read
    repeat' split
    all_goals simp_all [envOk]
  · intro g st t q patch
    unfold update
    repeat' split
    all_goals simp_all [envOk]
  · intro g st q
    unfold remove
    repeat' split
    all_goals simp_all [envOk]
  · intro sch g st gen t d
    unfold createMany
    repeat' split
    all_goals simp_all [envOk]
  · intro g q
    unfold readMany
    repeat' split
    all_goals simp_all [envOk]
  · intro sch m st i t d
    unfold create
    repeat' split
    all_goals simp_all
  · intro m q
    rfl
  · intro m st t q patch
    rfl
  · intro m st q
    rfl
  · intro sch m st gen t d
    unfold createMany
    repeat' split
    all_goals simp_all
  · intro m q
    rfl

/-! ### Claim C10 -/

/-- C10: when the batch operations createMany and readMany fail, the
envelope's data is the empty array, never none; when the single-document
operations create, read, update and remove fail, the envelope's data is
none. -/
theorem c10_error_data_shape :
    (∀ (sch : SchemaM) (g : Except String (List Fields)) (st : Except String Unit)
        (gen : Nat → String) (t : String) (d : Option (List Fields)),
        (createMany sch g st gen t d).1.status = Status.error →
        (createMany sch g st gen t d).1.data = some [])
    ∧ (∀ (g : Except String (List Fields)) (q : RMQueries),
        (readMany g q).status = Status.error → (readMany g q).data = some [])
    ∧ (∀ (sch : SchemaM) (g : Except String (List Fields)) (st : Except String Unit)
        (i t : String) (d : Option Fields),
        (create sch g st i t d).1.status = Status.error →
        (create sch g st i t d).1.data = none)
    ∧ (∀ (g : Except String (List Fields)) (q : Fields),
        (read g q).status = Status.error → (read g q).data = none)
    ∧ (∀ (g : Except String (List Fields)) (st : Except String Unit) (t : String)
        (q patch : Fields),
        (update g st t q patch).1.status = Status.error →
        (update g st t q patch).1.data = none)
    ∧ (∀ (g : Except String (List Fields)) (st : Except String Unit) (q : Fields),
        (remove g st q).1.status = Status.error →
        (remove g st q).1.data = none) := by
  refine ⟨?_, ?_, ?_, ?_, ?_, ?_⟩
  · intro sch g st gen t d
    unfold createMany
    repeat' split
    all_goals simp_all
  · intro g q
    unfold readMany
    repeat' split
    all_goals simp_all
  · intro sch g st i t d
    unfold create
    repeat' split
    all_goals simp_all
  · intro g q
    unfold read
    repeat' split
    all_goals simp_all
  · intro g st t q patch
    unfold update
    repeat' split
    all_goals simp_all
  · intro g st q
    unfold remove
    repeat' split
    all_goals simp_all

/-- C10 witness: a rejecting persistence get makes createMany fail with
data the empty array, and a null input makes create fail with data none. -/
theorem c10_error_data_shape_witness :
    (createMany userSchema (.error "boom") (.ok ()) (fun _ => "i") "t" (some [])).1.data
      = some []
    ∧ (create userSchema (.ok []) (.ok ()) "i" "t" none).1.data = none :=
  ⟨c10_error_data_shape.1 userSchema (.error "boom") (.ok ()) (fun _ => "i") "t"
      (some []) (by rfl),
   c10_error_data_shape.2.2.1 userSchema (.ok []) (.ok ()) "i" "t" none (by rfl)⟩

end Store

namespace Store

/-! ### Structure of the first-match update and remove -/

theorem updateFirst_structure (q tr : Fields) (s : List Fields)
    (h : s.any (flatMatch q) = true) :
    ∃ pre old post, s = pre ++ old :: post
      ∧ (∀ d ∈ pre, flatMatch q d = false)
      ∧ flatMatch q old = true
      ∧ updateFirst q tr s = some (oMerge old tr, pre ++ oMerge old tr :: post) := by
  induction s with
  | nil => simp at h
  | cons d ds ih =>
    by_cases hd : flatMatch q d
    · exact ⟨[], d, ds, rfl, by simp, hd, by simp [updateFirst, hd]⟩
    · have h2 : ds.any (flatMatch q) = true := by
        rcases List.any_eq_true.mp h with ⟨x, hx, hpx⟩
        rcases List.mem_cons.mp hx with heq | hx2
        · rw [heq] at hpx; exact absurd hpx hd
        · exact List.any_eq_true.mpr ⟨x, hx2, hpx⟩
      obtain ⟨pre, old, post, hs, hpre, hold, hup⟩ := ih h2
      refine ⟨d :: pre, old, post, by rw [hs]; rfl, ?_, hold, ?_⟩
      · intro x hx
        rcases List.mem_cons.mp hx with heq | hx2
        · rw [heq]; simpa using hd
        · exact hpre x hx2
      · simp [updateFirst, hd, hup]

theorem removeFirst_structure (q : Fields) (s : List Fields)
    (h : s.any (flatMatch q) = true) :
    ∃ pre old post, s = pre ++ old :: post
      ∧ (∀ d ∈ pre, flatMatch q d = false)
      ∧ flatMatch q old = true
      ∧ removeFirst q s = some (old, pre ++ post) := by
  induction s with
  | nil => simp at h
  | cons d ds ih =>
    by_cases hd : flatMatch q d
    · exact ⟨[], d, ds, rfl, by simp, hd, by simp [removeFirst, hd]⟩
    · have h2 : ds.any (flatMatch q) = true := by
        rcases List.any_eq_true.mp h with ⟨x, hx, hpx⟩
        rcases List.mem_cons.mp hx with heq | hx2
        · rw [heq] at hpx; exact absurd hpx hd
        · exact List.any_eq_true.mpr ⟨x, hx2, hpx⟩
      obtain ⟨pre, old, post, hs, hpre, hold, hrm⟩ := ih h2
      refine ⟨d :: pre, old, post, by rw [hs]; rfl, ?_, hold, ?_⟩
      · intro x hx
        rcases List.mem_cons.mp hx with heq | hx2
        · rw [heq]; simpa using hd
        · exact hpre x hx2
      · simp [removeFirst, hd, hrm]

theorem find?_append_of_none {α : Type} (p : α → Bool) (l₁ l₂ : List α)
    (h : l₁.find? p = none) : (l₁ ++ l₂).find? p = l₂.find? p := by
  induction l₁ with
  | nil => rfl
  | cons x xs ih =>
    cases hp : p x with
    | true => rw [List.find?_cons] at h; simp [hp] at h
    | false =>
      rw [List.find?_cons] at h
      simp only [hp] at h
      rw [List.cons_append, List.find?_cons]
      simp only [hp]
      exact ih h

/-! ### Claim C4 -/

/-- C4: when the query matches some document, the patch carries no
_updatedAt key (the typed interface excludes the system keys) and the
clock is not behind any stored timestamp, update succeeds, rewrites the
first matching document by setting exactly the patched fields, keeping
every other field, and stamping _updatedAt with a value at least the prior
one, while every other document of the collection is untouched. -/
theorem c4_update_frame (state : List Fields) (q patch : Fields) (now : String)
    (hm : state.any (flatMatch q) = true)
    (hp : hasF patch "_updatedAt" = false)
    (hclock : state.all (fun d => tsLe (getF d "_updatedAt") now) = true) :
    ∃ pre old post newDoc,
      state = pre ++ old :: post
      ∧ (∀ d ∈ pre, flatMatch q d = false)
      ∧ flatMatch q old = true
      ∧ (update (.ok state) (.ok ()) now q patch).1.status = Status.ok
      ∧ (update (.ok state) (.ok ()) now q patch).1.data = some newDoc
      ∧ (update (.ok state) (.ok ()) now q patch).2 = some (pre ++ newDoc :: post)
      ∧ (∀ k, hasF patch k = false → k ≠ "_updatedAt" → getF newDoc k = getF old k)
      ∧ (∀ k, hasF patch k = true → getF newDoc k = getF patch k)
      ∧ getF newDoc "_updatedAt" = some (.vStr now)
      ∧ tsLe (getF old "_updatedAt") now = true := by
  obtain ⟨pre, old, post, hs, hpre, hold, hup⟩ :=
    updateFirst_structure q (oMerge patch [("_updatedAt", .vStr now)]) state hm
  refine ⟨pre, old, post, oMerge old (oMerge patch [("_updatedAt", .vStr now)]),
    hs, hpre, hold, ?_, ?_, ?_, ?_, ?_, ?_, ?_⟩
  · simp [update, hup]
  · simp [update, hup]
  · simp [update, hup]
  · intro k hk hkne
    have h1 : hasF (oMerge patch [("_updatedAt", .vStr now)]) k = false := by
      rw [hasF_oMerge, hk]
      simp [hasF]
      intro hcontra
      exact hkne hcontra.symm
    rw [getF_oMerge, h1]
    simp
  · intro k hk
    have hkne : k ≠ "_updatedAt" := by
      intro he
      rw [he] at hk
      rw [hk] at hp
      exact absurd hp (by simp)
    have h1 : hasF (oMerge patch [("_updatedAt", .vStr now)]) k = true := by
      rw [hasF_oMerge, hk]
      simp
    rw [getF_oMerge, h1]
    simp only [if_true]
    have h2 : hasF [("_updatedAt", Value.vStr now)] k = false := by
      simp [hasF]
      intro hcontra
      exact hkne hcontra.symm
    rw [getF_oMerge, h2]
    simp
  · have h1 : hasF (oMerge patch [("_updatedAt", .vStr now)]) "_updatedAt" = true := by
      rw [hasF_oMerge]
      simp [hasF]
    rw [getF_oMerge, h1]
    simp only [if_true]
    have h2 : hasF [("_updatedAt", Value.vStr now)] "_updatedAt" = true := by
      simp [hasF]
    rw [getF_oMerge, h2]
    simp [getF]
  · have hmem : old ∈ state := by
      rw [hs]
      exact List.mem_append_right pre (List.mem_cons_self old post)
    exact List.all_eq_true.mp hclock old hmem

/-- C4 witness: one stored document with username a and timestamp 2020,
patched with a verified flag at time 2021. -/
theorem c4_update_frame_witness :
    ∃ pre old post newDoc,
      [[("username", Value.vStr "a"), ("_updatedAt", Value.vStr "2020")]]
        = pre ++ old :: post
      ∧ (∀ d ∈ pre, flatMatch [("username", Value.vStr "a")] d = false)
      ∧ flatMatch [("username", Value.vStr "a")] old = true
      ∧ (update (.ok [[("username", Value.vStr "a"), ("_updatedAt", Value.vStr "2020")]])
          (.ok ()) "2021" [("username", Value.vStr "a")]
          [("verified", Value.vBool true)]).1.status = Status.ok
      ∧ (update (.ok [[("username", Value.vStr "a"), ("_updatedAt", Value.vStr "2020")]])
          (.ok ()) "2021" [("username", Value.vStr "a")]
          [("verified", Value.vBool true)]).1.data = some newDoc
      ∧ (update (.ok [[("username", Value.vStr "a"), ("_updatedAt", Value.vStr "2020")]])
          (.ok ()) "2021" [("username", Value.vStr "a")]
          [("verified", Value.vBool true)]).2 = some (pre ++ newDoc :: post)
      ∧ (∀ k, hasF [("verified", Value.vBool true)] k = false → k ≠ "_updatedAt" →
          getF newDoc k = getF old k)
      ∧ (∀ k, hasF [("verified", Value.vBool true)] k = true →
          getF newDoc k = getF [("verified", Value.vBool true)] k)
      ∧ getF newDoc "_updatedAt" = some (.vStr "2021")
      ∧ tsLe (getF old "_updatedAt") "2021" = true :=
  c4_update_frame [[("username", Value.vStr "a"), ("_updatedAt", Value.vStr "2020")]]
    [("username", Value.vStr "a")] [("verified", Value.vBool true)] "2021"
    (by decide) (by decide) (by decide)

/-! ### Claim C7 -/

/-- C7 counterexample: with two stored documents both matching the query
role admin, remove succeeds but deletes only the first match, so the
subsequent read on the same query still finds the second document and
returns ok, not a not-found error. -/
theorem c7_counterexample :
    ((remove (.ok [[("role", Value.vStr "admin"), ("posted", Value.vNum 1)],
                   [("role", Value.vStr "admin"), ("posted", Value.vNum 2)]])
        (.ok ()) [("role", Value.vStr "admin")]).1.status = Status.ok)
    ∧ (remove (.ok [[("role", Value.vStr "admin"), ("posted", Value.vNum 1)],
                    [("role", Value.vStr "admin"), ("posted", Value.vNum 2)]])
        (.ok ()) [("role", Value.vStr "admin")]).2
      = some [[("role", Value.vStr "admin"), ("posted", Value.vNum 2)]]
    ∧ (read (.ok [[("role", Value.vStr "admin"), ("posted", Value.vNum 2)]])
        [("role", Value.vStr "admin")]).status = Status.ok
    ∧ (read (.ok [[("role", Value.vStr "admin"), ("posted", Value.vNum 2)]])
        [("role", Value.vStr "admin")]).errors ≠ some ErrKind.notFound := by
  exact ⟨by decide, by decide, by decide, by decide⟩

/-- C7 amended: when the flat strict-equality query matches exactly one
stored document, a successful remove followed by read on the same query
returns the not-found error envelope. -/
theorem c7_remove_then_read (state : List Fields) (q : Fields)
    (huniq : state.countP (flatMatch q) = 1) :
    ∃ old newState,
      (remove (.ok state) (.ok ()) q).1.status = Status.ok
      ∧ (remove (.ok state) (.ok ()) q).1.data = some old
      ∧ (remove (.ok state) (.ok ()) q).2 = some newState
      ∧ read (.ok newState) q
        = { data := none, status := Status.error,
            message := some "Document not found.", errors := some ErrKind.notFound } := by
  have hm : state.any (flatMatch q) = true := by
    cases hany : state.any (flatMatch q) with
    | true => rfl
    | false =>
      have h0 : state.countP (flatMatch q) = 0 :=
        List.countP_eq_zero.mpr (fun a ha => by
          have := List.any_eq_false.mp hany a ha
          simpa using this)
      rw [h0] at huniq
      exact absurd huniq (by simp)
  obtain ⟨pre, old, post, hs, hpre, hold, hrm⟩ := removeFirst_structure q state hm
  refine ⟨old, pre ++ post, ?_, ?_, ?_, ?_⟩
  · simp [remove, hrm]
  · simp [remove, hrm]
  · simp [remove, hrm]
  · have h0 : (pre ++ post).countP (flatMatch q) = 0 := by
      have hc := huniq
      rw [hs, List.countP_append, List.countP_cons, hold] at hc
      simp only [if_true, if_pos] at hc
      rw [List.countP_append]
      omega
    have hfind : (pre ++ post).find? (flatMatch q) = none := by
      rw [List.find?_eq_none]
      intro x hx
      have := List.countP_eq_zero.mp h0 x hx
      simpa using this
    simp [read, hfind]

/-- C7 witness: one stored document, queried by its role, removed and then
read again: not-found. -/
theorem c7_remove_then_read_witness :
    ∃ old newState,
      (remove (.ok [[("role", Value.vStr "user")]]) (.ok ())
          [("role", Value.vStr "user")]).1.status = Status.ok
      ∧ (remove (.ok [[("role", Value.vStr "user")]]) (.ok ())
          [("role", Value.vStr "user")]).1.data = some old
      ∧ (remove (.ok [[("role", Value.vStr "user")]]) (.ok ())
          [("role", Value.vStr "user")]).2 = some newState
      ∧ read (.ok newState) [("role", Value.vStr "user")]
        = { data := none, status := Status.error,
            message := some "Document not found.", errors := some ErrKind.notFound } :=
  c7_remove_then_read [[("role", Value.vStr "user")]] [("role", Value.vStr "user")]
    (by decide)

/-! ### Claim C5 -/

/-- C5: for data the schema accepts, create succeeds and returns a
document carrying the fresh identifier, and, provided the fresh identifier
is not already present (uuidv4 freshness), an immediate read by that _id
on the newly stored array returns exactly that document with status ok. -/
theorem c5_create_then_read (sch : SchemaM) (state : List Fields) (d pd : Fields)
    (freshId now : String)
    (hparse : sch.parse d = .ok pd)
    (hfresh : state.all (fun doc => !(getF doc "_id" == some (.vStr freshId))) = true) :
    ∃ doc newState,
      (create sch (.ok state) (.ok ()) freshId now (some d)).1.status = Status.ok
      ∧ (create sch (.ok state) (.ok ()) freshId now (some d)).1.data = some doc
      ∧ (create sch (.ok state) (.ok ()) freshId now (some d)).2 = some newState
      ∧ newState = state ++ [doc]
      ∧ getF doc "_id" = some (.vStr freshId)
      ∧ read (.ok newState) [("_id", .vStr freshId)]
        = { data := some doc, count := some 1, status := Status.ok,
            message := some "Document retrieved successfully." } := by
  refine ⟨oMerge pd [("_id", .vStr freshId), ("_createdAt", .vStr now), ("_updatedAt", .vStr now)],
    state ++ [oMerge pd [("_id", .vStr freshId), ("_createdAt", .vStr now), ("_updatedAt", .vStr now)]],
    ?_, ?_, ?_, rfl, ?_, ?_⟩
  · simp [create, hparse]
  · simp [create, hparse]
  · simp [create, hparse]
  · have h1 : hasF [("_id", Value.vStr freshId), ("_createdAt", Value.vStr now),
        ("_updatedAt", Value.vStr now)] "_id" = true := by
      simp [hasF]
    rw [getF_oMerge, h1]
    simp [getF]
  · have hid : getF (oMerge pd [("_id", .vStr freshId), ("_createdAt", .vStr now),
        ("_updatedAt", .vStr now)]) "_id" = some (.vStr freshId) := by
      have h1 : hasF [("_id", Value.vStr freshId), ("_createdAt", Value.vStr now),
          ("_updatedAt", Value.vStr now)] "_id" = true := by
        simp [hasF]
      rw [getF_oMerge, h1]
      simp [getF]
    have hnone : state.find? (flatMatch [("_id", .vStr freshId)]) = none := by
      rw [List.find?_eq_none]
      intro x hx
      have hx2 := List.all_eq_true.mp hfresh x hx
      simp [flatMatch]
      simpa using hx2
    have hfind : (state ++
        [oMerge pd [("_id", .vStr freshId), ("_createdAt", .vStr now), ("_updatedAt", .vStr now)]]).find?
          (flatMatch [("_id", .vStr freshId)])
        = some (oMerge pd [("_id", .vStr freshId), ("_createdAt", .vStr now), ("_updatedAt", .vStr now)]) := by
      rw [find?_append_of_none _ _ _ hnone, List.find?_cons]
      have : flatMatch [("_id", .vStr freshId)]
          (oMerge pd [("_id", .vStr freshId), ("_createdAt", .vStr now), ("_updatedAt", .vStr now)])
          = true := by
        simp [flatMatch, hid]
      simp [this]
    simp [read, hfind]

/-- C5 witness: a valid user document created into the empty collection
and read back by its identifier. -/
theorem c5_create_then_read_witness :
    ∃ doc newState,
      (create userSchema (.ok []) (.ok ()) "id-1" "t1"
          (some [("username", Value.vStr "u"), ("role", Value.vStr "admin"),
                 ("posted", Value.vNum 1), ("verified", Value.vBool true)])).1.status
        = Status.ok
      ∧ (create userSchema (.ok []) (.ok ()) "id-1" "t1"
          (some [("username", Value.vStr "u"), ("role", Value.vStr "admin"),
                 ("posted", Value.vNum 1), ("verified", Value.vBool true)])).1.data
        = some doc
      ∧ (create userSchema (.ok []) (.ok ()) "id-1" "t1"
          (some [("username", Value.vStr "u"), ("role", Value.vStr "admin"),
                 ("posted", Value.vNum 1), ("verified", Value.vBool true)])).2
        = some newState
      ∧ newState = [] ++ [doc]
      ∧ getF doc "_id" = some (.vStr "id-1")
      ∧ read (.ok newState) [("_id", .vStr "id-1")]
        = { data := some doc, count := some 1, status := Status.ok,
            message := some "Document retrieved successfully." } :=
  c5_create_then_read userSchema []
    [("username", Value.vStr "u"), ("role", Value.vStr "admin"),
     ("posted", Value.vNum 1), ("verified", Value.vBool true)]
    [("username", Value.vStr "u"), ("role", Value.vStr "admin"),
     ("posted", Value.vNum 1), ("verified", Value.vBool true)]
    "id-1" "t1" rfl (by decide)

end Store

namespace Store

/-! ### Batch creation lemmas -/

theorem filterMap_toOption_length (sch : SchemaM) :
    ∀ ds : List Fields, (∀ d ∈ ds, (sch.parse d).isOk = true) →
      (ds.filterMap (fun d => (sch.parse d).toOption)).length = ds.length := by
  intro ds
  induction ds with
  | nil => intro _; rfl
  | cons d rest ih =>
    intro h
    cases hp : sch.parse d with
    | error m =>
      have hd := h d (List.mem_cons_self d rest)
      rw [hp] at hd
      simp [Except.isOk, Except.toBool] at hd
    | ok x =>
      have htail := ih (fun a ha => h a (List.mem_cons_of_mem d ha))
      simp only [List.filterMap_cons, hp, Except.toOption, List.length_cons]
      simp only [Except.toOption] at htail
      rw [htail]

theorem parseMany_ok_all (sch : SchemaM) (ds : List Fields)
    (h : ∀ d ∈ ds, (sch.parse d).isOk = true) :
    ∃ pds, parseMany sch ds = .ok pds ∧ pds.length = ds.length := by
  rw [parseMany]
  have herr : (ds.filterMap (fun d =>
      match sch.parse d with | .error m => some m | .ok _ => none)) = [] := by
    rw [List.filterMap_eq_nil_iff]
    intro a ha
    cases hp : sch.parse a with
    | ok x => rfl
    | error m =>
      have := h a ha
      rw [hp] at this
      simp [Except.isOk, Except.toBool] at this
  rw [herr]
  exact ⟨_, rfl, filterMap_toOption_length sch ds h⟩

theorem parseMany_error_of_exists (sch : SchemaM) (ds : List Fields)
    (h : ∃ d ∈ ds, (sch.parse d).isOk = false) :
    ∃ m, parseMany sch ds = .error m := by
  rw [parseMany]
  obtain ⟨d, hd, hbad⟩ := h
  have hne : (ds.filterMap fun d =>
      match sch.parse d with | .error m => some m | .ok _ => none) ≠ [] := by
    intro hnil
    rw [List.filterMap_eq_nil_iff] at hnil
    have hnd := hnil d hd
    cases hp : sch.parse d with
    | ok x => rw [hp] at hbad; simp [Except.isOk, Except.toBool] at hbad
    | error m => rw [hp] at hnd; simp at hnd
  rw [if_neg (by simpa [List.isEmpty_iff] using hne)]
  exact ⟨_, rfl⟩

theorem length_tagDocs (gen : Nat → String) (now : String) :
    ∀ (i : Nat) (l : List Fields), (tagDocs gen now i l).length = l.length := by
  intro i l
  induction l generalizing i with
  | nil => rfl
  | cons pd rest ih => simp [tagDocs, ih]

theorem tagDocs_map_id (gen : Nat → String) (now : String) :
    ∀ (l : List Fields) (i : Nat),
      (tagDocs gen now i l).map (fun d => getF d "_id") = genIds gen i l.length := by
  intro l
  induction l with
  | nil => intro i; rfl
  | cons pd rest ih =>
    intro i
    simp only [tagDocs, List.map_cons, List.length_cons, genIds]
    have hhd : getF (oMerge pd [("_id", Value.vStr (gen i)), ("_createdAt", Value.vStr now),
        ("_updatedAt", Value.vStr now)]) "_id" = some (Value.vStr (gen i)) := by
      have h1 : hasF [("_id", Value.vStr (gen i)), ("_createdAt", Value.vStr now),
          ("_updatedAt", Value.vStr now)] "_id" = true := by simp [hasF]
      rw [getF_oMerge, h1]
      rfl
    rw [hhd, ih (i + 1)]

theorem tagDocs_map_createdAt (gen : Nat → String) (now : String) :
    ∀ (l : List Fields) (i : Nat),
      (tagDocs gen now i l).map (fun d => getF d "_createdAt")
        = List.replicate l.length (some (.vStr now)) := by
  intro l
  induction l with
  | nil => intro i; rfl
  | cons pd rest ih =>
    intro i
    simp only [tagDocs, List.map_cons, List.length_cons, List.replicate]
    have hhd : getF (oMerge pd [("_id", Value.vStr (gen i)), ("_createdAt", Value.vStr now),
        ("_updatedAt", Value.vStr now)]) "_createdAt" = some (Value.vStr now) := by
      have h1 : hasF [("_id", Value.vStr (gen i)), ("_createdAt", Value.vStr now),
          ("_updatedAt", Value.vStr now)] "_createdAt" = true := by simp [hasF]
      rw [getF_oMerge, h1]
      rfl
    rw [hhd, ih (i + 1)]

theorem tagDocs_map_updatedAt (gen : Nat → String) (now : String) :
    ∀ (l : List Fields) (i : Nat),
      (tagDocs gen now i l).map (fun d => getF d "_updatedAt")
        = List.replicate l.length (some (.vStr now)) := by
  intro l
  induction l with
  | nil => intro i; rfl
  | cons pd rest ih =>
    intro i
    simp only [tagDocs, List.map_cons, List.length_cons, List.replicate]
    have hhd : getF (oMerge pd [("_id", Value.vStr (gen i)), ("_createdAt", Value.vStr now),
        ("_updatedAt", Value.vStr now)]) "_updatedAt" = some (Value.vStr now) := by
      have h1 : hasF [("_id", Value.vStr (gen i)), ("_createdAt", Value.vStr now),
          ("_updatedAt", Value.vStr now)] "_updatedAt" = true := by simp [hasF]
      rw [getF_oMerge, h1]
      rfl
    rw [hhd, ih (i + 1)]

theorem mem_genIds (gen : Nat → String) :
    ∀ (n i : Nat) (x : Option Value),
      x ∈ genIds gen i n ↔ ∃ j, j < n ∧ x = some (.vStr (gen (i + j))) := by
  intro n
  induction n with
  | zero => intro i x; simp [genIds]
  | succ m ih =>
    intro i x
    simp only [genIds, List.mem_cons]
    constructor
    · rintro (h | h)
      · exact ⟨0, Nat.succ_pos m, by simpa using h⟩
      · obtain ⟨j, hj, hx⟩ := (ih (i + 1) x).mp h
        refine ⟨j + 1, by omega, ?_⟩
        have harith : i + 1 + j = i + (j + 1) := by omega
        rw [hx, harith]
    · rintro ⟨j, hj, hx⟩
      cases j with
      | zero => left; simpa using hx
      | succ j2 =>
        right
        refine (ih (i + 1) x).mpr ⟨j2, by omega, ?_⟩
        have harith : i + (j2 + 1) = i + 1 + j2 := by omega
        rw [hx, harith]

theorem genIds_nodup (gen : Nat → String) :
    ∀ (n i : Nat), (∀ a b, a < n → b < n → gen (i + a) = gen (i + b) → a = b) →
      (genIds gen i n).Nodup := by
  intro n
  induction n with
  | zero => intro i _; simp [genIds]
  | succ m ih =>
    intro i hinj
    simp only [genIds, List.nodup_cons]
    constructor
    · intro hmem
      obtain ⟨j, hj, hx⟩ := (mem_genIds gen m (i + 1) _).mp hmem
      simp only [Option.some.injEq, Value.vStr.injEq] at hx
      have hg : gen (i + 0) = gen (i + (j + 1)) := by
        have harith : i + 1 + j = i + (j + 1) := by omega
        rw [Nat.add_zero, ← harith]
        exact hx
      have := hinj 0 (j + 1) (by omega) (by omega) hg
      omega
    · apply ih (i + 1)
      intro a b ha hb heq
      have hg : gen (i + (a + 1)) = gen (i + (b + 1)) := by
        have h1 : i + (a + 1) = i + 1 + a := by omega
        have h2 : i + (b + 1) = i + 1 + b := by omega
        rw [h1, h2]
        exact heq
      have := hinj (a + 1) (b + 1) (by omega) (by omega) hg
      omega

/-! ### Claim C6 -/

/-- C6: createMany is atomic: when any element of the input array fails
schema validation the whole call fails with status error and nothing is
written to the store; when every element validates, the call succeeds,
appends exactly the batch, stamps the i-th inserted document with the i-th
fresh identifier, gives every inserted document the one shared
_createdAt = _updatedAt timestamp, and the inserted identifiers are
pairwise distinct whenever the supplied fresh identifiers are. -/
theorem c6_createMany_atomic (sch : SchemaM) (state ds : List Fields)
    (gen : Nat → String) (now : String) (setRes : Except String Unit) :
    ((∃ d ∈ ds, (sch.parse d).isOk = false) →
      (createMany sch (.ok state) setRes gen now (some ds)).1.status = Status.error
      ∧ (createMany sch (.ok state) setRes gen now (some ds)).2 = none)
    ∧ ((∀ d ∈ ds, (sch.parse d).isOk = true) → setRes = .ok () →
      ∃ docs,
        (createMany sch (.ok state) setRes gen now (some ds)).1.status = Status.ok
        ∧ (createMany sch (.ok state) setRes gen now (some ds)).1.data = some docs
        ∧ (createMany sch (.ok state) setRes gen now (some ds)).2 = some (state ++ docs)
        ∧ docs.length = ds.length
        ∧ docs.map (fun d => getF d "_id") = genIds gen 0 ds.length
        ∧ docs.map (fun d => getF d "_createdAt")
            = List.replicate ds.length (some (.vStr now))
        ∧ docs.map (fun d => getF d "_updatedAt")
            = List.replicate ds.length (some (.vStr now))
        ∧ ((∀ a b, a < ds.length → b < ds.length → gen a = gen b → a = b) →
            (docs.map (fun d => getF d "_id")).Nodup)) := by
  constructor
  · intro hbad
    obtain ⟨m, hm⟩ := parseMany_error_of_exists sch ds hbad
    constructor
    · simp [createMany, hm]
    · simp [createMany, hm]
  · intro hgood hset
    obtain ⟨pds, hpm, hlen⟩ := parseMany_ok_all sch ds hgood
    refine ⟨tagDocs gen now 0 pds, ?_, ?_, ?_, ?_, ?_, ?_, ?_, ?_⟩
    · simp [createMany, hpm, hset]
    · simp [createMany, hpm, hset]
    · simp [createMany, hpm, hset]
    · rw [length_tagDocs, hlen]
    · rw [tagDocs_map_id, hlen]
    · rw [tagDocs_map_createdAt, hlen]
    · rw [tagDocs_map_updatedAt, hlen]
    · intro hinj
      rw [tagDocs_map_id, hlen]
      apply genIds_nodup gen ds.length 0
      intro a b ha hb heq
      exact hinj a b ha hb (by simpa using heq)

/-- C6 witness: a batch with an invalid element writes nothing; a valid
two-element batch is inserted with distinct identifiers and one shared
timestamp. -/
theorem c6_createMany_atomic_witness :
    ((createMany userSchema (.ok []) (.ok ()) (fun i => toString i) "t"
        (some [[("username", Value.vStr "u")]])).1.status = Status.error
      ∧ (createMany userSchema (.ok []) (.ok ()) (fun i => toString i) "t"
        (some [[("username", Value.vStr "u")]])).2 = none)
    ∧ ∃ docs,
        (createMany userSchema (.ok [])
            (.ok ()) (fun i => toString i) "t2"
            (some [[("username", Value.vStr "a"), ("role", Value.vStr "admin"),
                    ("posted", Value.vNum 1), ("verified", Value.vBool true)],
                   [("username", Value.vStr "b"), ("role", Value.vStr "user"),
                    ("posted", Value.vNum 2), ("verified", Value.vBool false)]])).1.status
          = Status.ok
        ∧ (createMany userSchema (.ok [])
            (.ok ()) (fun i => toString i) "t2"
            (some [[("username", Value.vStr "a"), ("role", Value.vStr "admin"),
                    ("posted", Value.vNum 1), ("verified", Value.vBool true)],
                   [("username", Value.vStr "b"), ("role", Value.vStr "user"),
                    ("posted", Value.vNum 2), ("verified", Value.vBool false)]])).1.data
          = some docs
        ∧ (createMany userSchema (.ok [])
            (.ok ()) (fun i => toString i) "t2"
            (some [[("username", Value.vStr "a"), ("role", Value.vStr "admin"),
                    ("posted", Value.vNum 1), ("verified", Value.vBool true)],
                   [("username", Value.vStr "b"), ("role", Value.vStr "user"),
                    ("posted", Value.vNum 2), ("verified", Value.vBool false)]])).2
          = some ([] ++ docs)
        ∧ docs.length = 2
        ∧ docs.map (fun d => getF d "_id") = genIds (fun i => toString i) 0 2
        ∧ docs.map (fun d => getF d "_createdAt")
            = List.replicate 2 (some (.vStr "t2"))
        ∧ docs.map (fun d => getF d "_updatedAt")
            = List.replicate 2 (some (.vStr "t2"))
        ∧ ((∀ a b, a < 2 → b < 2 → toString a = toString b → a = b) →
            (docs.map (fun d => getF d "_id")).Nodup) := by
  constructor
  · exact (c6_createMany_atomic userSchema [] [[("username", Value.vStr "u")]]
      (fun i => toString i) "t" (.ok ())).1
      ⟨[("username", Value.vStr "u")], by simp, by decide⟩
  · exact (c6_createMany_atomic userSchema []
      [[("username", Value.vStr "a"), ("role", Value.vStr "admin"),
        ("posted", Value.vNum 1), ("verified", Value.vBool true)],
       [("username", Value.vStr "b"), ("role", Value.vStr "user"),
        ("posted", Value.vNum 2), ("verified", Value.vBool false)]]
      (fun i => toString i) "t2" (.ok ())).2
      (by decide) rfl

end Store

namespace Store

/-! ### Identifier lemmas for operation sequences -/

theorem ids_append (a b : List Fields) : ids (a ++ b) = ids a ++ ids b := by
  simp [ids]

theorem getF_sys_id (pd : Fields) (i t u : String) :
    getF (oMerge pd [("_id", Value.vStr i), ("_createdAt", Value.vStr t),
      ("_updatedAt", Value.vStr u)]) "_id" = some (.vStr i) := by
  have h1 : hasF [("_id", Value.vStr i), ("_createdAt", Value.vStr t),
      ("_updatedAt", Value.vStr u)] "_id" = true := by simp [hasF]
  rw [getF_oMerge, h1]
  rfl

theorem parseMany_ok_length (sch : SchemaM) (ds pds : List Fields)
    (h : parseMany sch ds = .ok pds) : pds.length = ds.length := by
  rw [parseMany] at h
  by_cases he : (ds.filterMap (fun d =>
      match sch.parse d with | .error m => some m | .ok _ => none)).isEmpty
  · rw [if_pos he] at h
    injection h with h2
    subst h2
    apply filterMap_toOption_length
    intro d hd
    rw [List.isEmpty_iff, List.filterMap_eq_nil_iff] at he
    have hnd := he d hd
    cases hp : sch.parse d with
    | ok x => simp [Except.isOk, Except.toBool]
    | error m => rw [hp] at hnd; simp at hnd
  · rw [if_neg he] at h
    exact absurd h (by simp)

theorem updateFirst_ids (q tr : Fields) (htr : hasF tr "_id" = false) :
    ∀ (s : List Fields) (rl : Fields × List Fields),
      updateFirst q tr s = some rl → ids rl.2 = ids s := by
  intro s
  induction s with
  | nil => intro rl h; simp [updateFirst] at h
  | cons d ds ih =>
    intro rl h
    rw [updateFirst] at h
    by_cases hd : flatMatch q d
    · rw [if_pos hd] at h
      injection h with h2
      subst h2
      simp only [ids, List.map_cons]
      rw [getF_oMerge, htr]
      simp
    · rw [if_neg hd] at h
      cases hup : updateFirst q tr ds with
      | none => rw [hup] at h; exact absurd h (by simp)
      | some pr =>
        obtain ⟨r2, l2⟩ := pr
        rw [hup] at h
        injection h with h2
        subst h2
        have htail := ih (r2, l2) hup
        simp only [ids, List.map_cons] at htail ⊢
        rw [htail]

theorem removeFirst_sublist (q : Fields) :
    ∀ (s : List Fields) (rl : Fields × List Fields),
      removeFirst q s = some rl → rl.2.Sublist s := by
  intro s
  induction s with
  | nil => intro rl h; simp [removeFirst] at h
  | cons d ds ih =>
    intro rl h
    rw [removeFirst] at h
    by_cases hd : flatMatch q d
    · rw [if_pos hd] at h
      injection h with h2
      subst h2
      exact List.sublist_cons_self d ds
    · rw [if_neg hd] at h
      cases hrm : removeFirst q ds with
      | none => rw [hrm] at h; exact absurd h (by simp)
      | some pr =>
        obtain ⟨r2, l2⟩ := pr
        rw [hrm] at h
        injection h with h2
        subst h2
        exact List.Sublist.cons₂ d (ih (r2, l2) hrm)

theorem ids_update_eq (sch : SchemaM) (s : List Fields) (t : String) (q patch : Fields)
    (st : Except String Unit) (hp : hasF patch "_id" = false) :
    ids (applyOp sch s (.opUpdate t q patch st)) = ids s := by
  rw [applyOp, update]
  cases hup : updateFirst q (oMerge patch [("_updatedAt", .vStr t)]) s with
  | none => simp [hup]
  | some rl =>
    obtain ⟨r2, l2⟩ := rl
    cases st with
    | error m => simp [hup]
    | ok u =>
      simp only [hup, Option.getD_some]
      have htr : hasF (oMerge patch [("_updatedAt", Value.vStr t)]) "_id" = false := by
        rw [hasF_oMerge, hp]
        rfl
      exact updateFirst_ids q _ htr s (r2, l2) hup

theorem ids_applyOp_cases (sch : SchemaM) (s : List Fields) (op : Op)
    (hok : opIdOk op = true) :
    ids (applyOp sch s op) = ids s
    ∨ ids (applyOp sch s op) = ids s ++ opNewIds op
    ∨ (ids (applyOp sch s op)).Sublist (ids s) := by
  cases op with
  | opCreate i t d st =>
    cases d with
    | none => left; rfl
    | some dd =>
      cases hp : sch.parse dd with
      | error m => left; simp [applyOp, create, hp]
      | ok pd =>
        cases st with
        | error m => left; simp [applyOp, create, hp]
        | ok u =>
          right; left
          simp only [applyOp, create, hp, Option.getD_some]
          rw [ids_append]
          simp only [ids, opNewIds, List.map_cons, List.map_nil]
          rw [getF_sys_id]
  | opCreateMany gen t d st =>
    cases d with
    | none => left; rfl
    | some ds =>
      cases hpm : parseMany sch ds with
      | error m => left; simp [applyOp, createMany, hpm]
      | ok pds =>
        cases st with
        | error m => left; simp [applyOp, createMany, hpm]
        | ok u =>
          right; left
          simp only [applyOp, createMany, hpm, Option.getD_some]
          rw [ids_append]
          have hmap : ids (tagDocs gen t 0 pds) = genIds gen 0 pds.length := by
            simp only [ids]
            exact tagDocs_map_id gen t pds 0
          rw [hmap, parseMany_ok_length sch ds pds hpm]
          rfl
  | opUpdate t q patch st =>
    left
    apply ids_update_eq
    simp only [opIdOk, Bool.not_eq_true'] at hok
    exact hok
  | opRemove q st =>
    cases hrm : removeFirst q s with
    | none => left; simp [applyOp, remove, hrm]
    | some rl =>
      obtain ⟨r2, l2⟩ := rl
      cases st with
      | error m => left; simp [applyOp, remove, hrm]
      | ok u =>
        right; right
        simp only [applyOp, remove, hrm, Option.getD_some]
        exact List.Sublist.map _ (removeFirst_sublist q s (r2, l2) hrm)

theorem nodup_applyOp (sch : SchemaM) (s : List Fields) (op : Op)
    (hnd : (ids s).Nodup) (hok : opIdOk op = true) (hfresh : opFreshOk op s = true) :
    (ids (applyOp sch s op)).Nodup := by
  rcases ids_applyOp_cases sch s op hok with h | h | h
  · rw [h]; exact hnd
  · rw [h]
    rw [opFreshOk, Bool.and_eq_true] at hfresh
    obtain ⟨h1, h2⟩ := hfresh
    refine List.Nodup.append hnd (of_decide_eq_true h1) ?_
    intro a ha hb
    exact of_decide_eq_true (List.all_eq_true.mp h2 a hb) ha
  · exact List.Nodup.sublist h hnd

theorem nodup_applyOps (sch : SchemaM) :
    ∀ (ops : List Op) (s : List Fields), (ids s).Nodup → goodRun sch s ops = true →
      (ids (applyOps sch s ops)).Nodup := by
  intro ops
  induction ops with
  | nil => intro s h _; exact h
  | cons op rest ih =>
    intro s h hrun
    rw [goodRun, Bool.and_eq_true, Bool.and_eq_true] at hrun
    obtain ⟨⟨hok, hfresh⟩, hrest⟩ := hrun
    rw [applyOps, List.foldl_cons]
    exact ih (applyOp sch s op) (nodup_applyOp sch s op h hok hfresh) hrest

theorem mem_ids_applyOp (sch : SchemaM) (s : List Fields) (op : Op)
    (hok : opIdOk op = true) :
    ∀ i ∈ ids (applyOp sch s op), i ∈ ids s ∨ i ∈ opNewIds op := by
  intro i hi
  rcases ids_applyOp_cases sch s op hok with h | h | h
  · rw [h] at hi; exact Or.inl hi
  · rw [h] at hi
    rcases List.mem_append.mp hi with h2 | h2
    · exact Or.inl h2
    · exact Or.inr h2
  · exact Or.inl (h.subset hi)

/-! ### Claim C2 -/

/-- C2: over any sequence of create, createMany, update and remove
operations in which the supplied fresh identifiers are fresh (what uuidv4
gives) and update patches respect the typed interface (no _id key), the
stored _id column stays pairwise distinct; moreover an update never
changes any stored _id, and after any single operation every stored _id
either was already stored or is one of the identifiers assigned at that
creation. -/
theorem c2_id_invariant (sch : SchemaM) (s0 : List Fields) (ops : List Op)
    (h0 : (ids s0).Nodup) (hrun : goodRun sch s0 ops = true) :
    (ids (applyOps sch s0 ops)).Nodup
    ∧ (∀ (s : List Fields) (t : String) (q patch : Fields) (st : Except String Unit),
        hasF patch "_id" = false →
        ids (applyOp sch s (.opUpdate t q patch st)) = ids s)
    ∧ (∀ (s : List Fields) (op : Op), opIdOk op = true →
        ∀ i ∈ ids (applyOp sch s op), i ∈ ids s ∨ i ∈ opNewIds op) := by
  refine ⟨nodup_applyOps sch ops s0 h0 hrun, ?_, mem_ids_applyOp sch⟩
  intro s t q patch st hp
  exact ids_update_eq sch s t q patch st hp

/-- C2 witness: create a user, patch its posted count, remove it; the
identifier column stays distinct throughout. -/
theorem c2_id_invariant_witness :
    (ids (applyOps userSchema []
      [Op.opCreate "id1" "t1"
          (some [("username", Value.vStr "u"), ("role", Value.vStr "admin"),
                 ("posted", Value.vNum 1), ("verified", Value.vBool true)]) (.ok ()),
       Op.opUpdate "t2" [("_id", Value.vStr "id1")] [("posted", Value.vNum 9)] (.ok ()),
       Op.opRemove [("_id", Value.vStr "id1")] (.ok ())])).Nodup
    ∧ (∀ (s : List Fields) (t : String) (q patch : Fields) (st : Except String Unit),
        hasF patch "_id" = false →
        ids (applyOp userSchema s (.opUpdate t q patch st)) = ids s)
    ∧ (∀ (s : List Fields) (op : Op), opIdOk op = true →
        ∀ i ∈ ids (applyOp userSchema s op), i ∈ ids s ∨ i ∈ opNewIds op) :=
  c2_id_invariant userSchema []
    [Op.opCreate "id1" "t1"
        (some [("username", Value.vStr "u"), ("role", Value.vStr "admin"),
               ("posted", Value.vNum 1), ("verified", Value.vBool true)]) (.ok ()),
     Op.opUpdate "t2" [("_id", Value.vStr "id1")] [("posted", Value.vNum 9)] (.ok ()),
     Op.opRemove [("_id", Value.vStr "id1")] (.ok ())]
    (by decide) (by decide)

end Store
